import Mathlib

/-!
Verification of the `ockendenjo/handler` repository: a shallow embedding of
the concurrent SQS batch dispatcher (`sqs.go`), the retryable-error
classifier (`error.go`), the story logger (`logger.go`) and the telemetry
aggregator (`metrics.go`), together with theorems settling the frozen
claims about the natural-language specification.

Modelling conventions:
* `json.Unmarshal` into the caller's generic type `T` is a parameter
  `unmarshal : String → Except String T` (the decoder is external code).
* The caller-supplied `ProcessSQSEvent` is a parameter `proc : T → ProcResult`
  describing, for one decoded value, whether the call returns nil, returns an
  error value, or panics.
* Wall-clock instants are `Nat` milliseconds.  For each record the moment at
  which its success-channel send would be observed by the paired waiter is an
  adversarial schedule input paired with the record; `asyncWaitForResult`'s
  `select` is modelled by comparing that instant with the timer's firing
  instant (the effective deadline), completion winning only strictly before.
* Go maps are association lists with unique keys; map iteration order is the
  list order.
-/

namespace Handler

/-- The fields of `events.SQSMessage` used by `sqs.go`. -/
structure SQSMessage where
  receiptHandle : String
  body : String
  deriving DecidableEq, Repr

/-- `events.SQSBatchItemFailure`. -/
structure SQSBatchItemFailure where
  itemIdentifier : String
  deriving DecidableEq, Repr

/-- `events.SQSEventResponse`. -/
structure SQSEventResponse where
  batchItemFailures : List SQSBatchItemFailure
  deriving DecidableEq, Repr

/-- A Go error value as seen by `IsErrorRetryable` (`error.go`): an error
either implements `RetryableError`, or supports `Unwrap`, or neither. -/
inductive GoError where
  | base (message : String)
  | retryable (message : String) (retry : Bool)
  | wrap (message : String) (inner : GoError)
  deriving DecidableEq, Repr

/-- The `Error()` string of a `GoError`. -/
def GoError.msg : GoError → String
  | .base m => m
  | .retryable m _ => m
  | .wrap m _ => m

/-- `error.go` `IsErrorRetryable`: walk the `Unwrap` chain; the first error
implementing `RetryableError` decides; `false` when the chain ends without
one. -/
def IsErrorRetryable : GoError → Bool
  | .base _ => false
  | .retryable _ r => r
  | .wrap _ inner => IsErrorRetryable inner

/-- Severity of an individual log statement. -/
inductive LogLevel where
  | info
  | error
  deriving DecidableEq, Repr

/-- A logged attribute value: a plain string or a slice of strings. -/
inductive LogValue where
  | str (s : String)
  | strList (l : List String)
  deriving DecidableEq, Repr

/-- One log statement issued while processing a record: severity, message and
attached attributes. -/
structure LogEvent where
  level : LogLevel
  message : String
  attrs : List (String × LogValue)
  deriving DecidableEq, Repr

/-- Behaviour of one call of the caller-supplied `ProcessSQSEvent` for one
decoded value: return nil, return an error, or panic (with the panic value
rendered by `%v` and the `debug.Stack()` bytes). -/
inductive ProcResult where
  | ok
  | err (e : GoError)
  | panicked (message : String) (stack : String)
  deriving DecidableEq, Repr

/-- `sqs.go` `getStackTraceAsSlice`: split the stack on newlines, trim the
surrounding whitespace of each line and drop empty lines. -/
def getStackTraceAsSlice (stack : String) : List String :=
  ((stack.splitOn "\n").map String.trim).filter (fun s => s ≠ "")

/-- Result of the per-record `process` closure of `GetSQSHandler`
(`sqs.go` lines 40–84): the boolean sent on the success channel, the log
statements issued against the record's own context, and whether the
caller-supplied processor was invoked at all. -/
structure ProcessOut where
  signal : Bool
  logs : List LogEvent
  procInvoked : Bool
  deriving Repr

/-- The `process` closure of `GetSQSHandler`: unmarshal the body (on failure
log and signal `false` without invoking the processor), invoke the processor,
classify a returned error with `IsErrorRetryable` purely for log severity, and
convert a panic (caught by the deferred `recover`) into an error-severity log
carrying the stack-trace slice; signal `true` only when the processor returned
nil. -/
def processRecord {T : Type} (unmarshal : String → Except String T)
    (proc : T → ProcResult) (rec : SQSMessage) : ProcessOut :=
  match unmarshal rec.body with
  | .error e =>
    { signal := false
      logs := [⟨.error, "JSON unmarshal returned error",
                [("error", .str e), ("body", .str rec.body)]⟩]
      procInvoked := false }
  | .ok t =>
    match proc t with
    | .ok => { signal := true, logs := [], procInvoked := true }
    | .err e =>
      { signal := false
        logs := [⟨if IsErrorRetryable e then .info else .error,
                  "Processing returned error: " ++ e.msg,
                  [("body", .str rec.body)]⟩]
        procInvoked := true }
    | .panicked m stack =>
      { signal := false
        logs := [⟨.error, "Goroutine panicked: " ++ m,
                  [("panicStack", .strList (getStackTraceAsSlice stack))]⟩]
        procInvoked := true }

/-- Flags recorded by the waiter for one record (`routineData.failed` /
`routineData.timedOut`). -/
structure RoutineState where
  failed : Bool
  timedOut : Bool
  deriving DecidableEq, Repr

/-- `sqs.go` `asyncWaitForResult`: `select` between the success channel and
the per-record timer.  `sigFirst` is true iff the completion signal is
observed strictly before the timer fires; in that case the timer is stopped
and `failed` records a false signal, otherwise the record is marked timed out
and the eventual channel value is never received. -/
def asyncWaitForResult (signal : Bool) (sigFirst : Bool) : RoutineState :=
  if sigFirst then { failed := !signal, timedOut := false }
  else { failed := false, timedOut := true }

/-- The handler returned by `GetSQSHandler` (`sqs.go` lines 86–136), together
with its per-record trace.  `deadline` is the invocation context's deadline
(`none` when the context has no deadline).  Each element of `event` pairs a
record with the instant at which its success-channel send would be observed.
The trace (second component) lists, per record, the `process` output and the
waiter flags; it is empty when the handler fails validation, reflecting that
no record is processed then. -/
def getSQSHandlerFull {T : Type} (unmarshal : String → Except String T)
    (proc : T → ProcResult) (deadline : Option Nat)
    (event : List (SQSMessage × Nat)) :
    Except String SQSEventResponse × List (SQSMessage × ProcessOut × RoutineState) :=
  match deadline with
  | none => (.error "context must have a deadline set", [])
  | some dl =>
    let effDeadline := dl - 500
    let routines := event.map fun ri =>
      let out := processRecord unmarshal proc ri.1
      (ri.1, out, asyncWaitForResult out.signal (decide (ri.2 < effDeadline)))
    let failures := routines.foldl
      (fun acc r =>
        if r.2.2.failed || r.2.2.timedOut then acc ++ [⟨r.1.receiptHandle⟩]
        else acc) []
    (.ok { batchItemFailures := failures }, routines)

/-- The response/error part of the handler returned by `GetSQSHandler`. -/
def getSQSHandler {T : Type} (unmarshal : String → Except String T)
    (proc : T → ProcResult) (deadline : Option Nat)
    (event : List (SQSMessage × Nat)) : Except String SQSEventResponse :=
  (getSQSHandlerFull unmarshal proc deadline event).1

/-- Whether one record ends up flagged `failed` or `timedOut` by its waiter. -/
def recordFails {T : Type} (unmarshal : String → Except String T)
    (proc : T → ProcResult) (dl : Nat) (ri : SQSMessage × Nat) : Bool :=
  let st := asyncWaitForResult (processRecord unmarshal proc ri.1).signal
    (decide (ri.2 < dl - 500))
  st.failed || st.timedOut

/-- The batch-item-failure list the handler collects, characterised as a
filter over the input records. -/
def batchFailures {T : Type} (unmarshal : String → Except String T)
    (proc : T → ProcResult) (dl : Nat) (event : List (SQSMessage × Nat)) :
    List SQSBatchItemFailure :=
  (event.filter (recordFails unmarshal proc dl)).map fun ri => ⟨ri.1.receiptHandle⟩

/-- The receipt handles of an event's records, in order. -/
def eventHandles (event : List (SQSMessage × Nat)) : List String :=
  event.map fun ri => ri.1.receiptHandle

lemma foldl_if_append {α β : Type} (f : α → Bool) (g : α → β) :
    ∀ (l : List α) (acc : List β),
      l.foldl (fun a x => if f x then a ++ [g x] else a) acc
        = acc ++ (l.filter f).map g := by
  intro l
  induction l with
  | nil => intro acc; simp
  | cons x xs ih =>
    intro acc
    by_cases h : f x = true
    · simp [List.foldl_cons, h, List.filter_cons, ih, List.append_assoc]
    · simp at h
      simp [List.foldl_cons, h, List.filter_cons, ih]

set_option maxRecDepth 4000 in
/-- The handler with a deadline returns `ok` with exactly the filtered
failure list. -/
lemma getSQSHandler_eq {T : Type} (unmarshal : String → Except String T)
    (proc : T → ProcResult) (dl : Nat) (event : List (SQSMessage × Nat)) :
    getSQSHandler unmarshal proc (some dl) event
      = .ok ⟨batchFailures unmarshal proc dl event⟩ := by
  simp only [getSQSHandler, getSQSHandlerFull]
  rw [foldl_if_append
        (fun r : SQSMessage × ProcessOut × RoutineState => r.2.2.failed || r.2.2.timedOut)
        (fun r : SQSMessage × ProcessOut × RoutineState =>
          (⟨r.1.receiptHandle⟩ : SQSBatchItemFailure)),
      List.filter_map, List.map_map]
  rfl

/-- A record of the event that fails has its receipt handle in the collected
failure list. -/
lemma mem_batchFailures {T : Type} (unmarshal : String → Except String T)
    (proc : T → ProcResult) (dl : Nat) (event : List (SQSMessage × Nat))
    (ri : SQSMessage × Nat) (hin : ri ∈ event)
    (hf : recordFails unmarshal proc dl ri = true) :
    ri.1.receiptHandle
      ∈ (batchFailures unmarshal proc dl event).map SQSBatchItemFailure.itemIdentifier := by
  simp only [batchFailures, List.map_map, List.mem_map, List.mem_filter]
  exact ⟨ri, ⟨hin, hf⟩, rfl⟩

/-- A record fails iff it did not both signal success and do so strictly
before the effective deadline. -/
lemma recordFails_iff {T : Type} (unmarshal : String → Except String T)
    (proc : T → ProcResult) (dl : Nat) (ri : SQSMessage × Nat) :
    recordFails unmarshal proc dl ri = false
      ↔ ((processRecord unmarshal proc ri.1).signal = true ∧ ri.2 < dl - 500) := by
  unfold recordFails asyncWaitForResult
  by_cases h : ri.2 < dl - 500 <;> simp [h]

/-- In a list whose image under `f` has no duplicates, two members with the
same image are equal. -/
lemma mem_eq_of_nodup_map {α β : Type} (f : α → β) :
    ∀ (l : List α), (l.map f).Nodup →
      ∀ x ∈ l, ∀ y ∈ l, f x = f y → x = y := by
  intro l
  induction l with
  | nil => intro _ x hx; simp at hx
  | cons a as ih =>
    intro hnd x hx y hy hf
    rw [List.map_cons, List.nodup_cons] at hnd
    obtain ⟨hna, hnd'⟩ := hnd
    rcases List.mem_cons.mp hx with rfl | hx' <;>
      rcases List.mem_cons.mp hy with rfl | hy'
    · rfl
    · exact absurd (hf ▸ List.mem_map_of_mem f hy') hna
    · exact absurd (hf ▸ List.mem_map_of_mem f hx') hna
    · exact ih hnd' x hx' y hy' hf

/-! ### Story logger (`logger.go`)

`map[any]any` params are modelled as association lists over `String` keys
with unique keys and last-write-wins semantics; the `slog` sink is modelled
by returning the list of records a call writes to it.  Record emission order
within one call is the list order; Go map iteration order (irrelevant to the
claims) is the association-list order. -/

/-- One structured record written to the `slog` sink. -/
structure LogRecord where
  level : LogLevel
  message : String
  params : List (String × LogValue)
  stagesAttr : Option (List String)
  deriving DecidableEq, Repr

/-- Insert into a unique-key association list, overwriting the existing
binding (Go map assignment). -/
def mapInsert (m : List (String × LogValue)) (k : String) (v : LogValue) :
    List (String × LogValue) :=
  match m with
  | [] => [(k, v)]
  | (k0, v0) :: rest =>
    if k0 = k then (k0, v) :: rest else (k0, v0) :: mapInsert rest k v

/-- The story logger (`Logger` in `logger.go`). -/
structure Logger where
  stages : List String
  params : List (String × LogValue)
  lineParams : List (String × LogValue)
  disabled : Bool
  errorLevel : Bool
  combinedMode : Bool
  deriving DecidableEq, Repr

/-- `newStoryLogger`: empty stages, params and line params; all flags false
(`Context.Split` then sets `combinedMode := true` on the child logger). -/
def newStoryLogger : Logger :=
  { stages := [], params := [], lineParams := []
    disabled := false, errorLevel := false, combinedMode := false }

/-- `Logger.AddStage`: append a stage description. -/
def Logger.AddStage (s : Logger) (description : String) : Logger :=
  { s with stages := s.stages ++ [description] }

/-- `Logger.AddParam`: `s.params[key] = value`. -/
def Logger.AddParam (s : Logger) (key : String) (value : LogValue) : Logger :=
  { s with params := mapInsert s.params key value }

/-- `Logger.With` / `addParams`: add each key/value pair to the params map. -/
def Logger.With (s : Logger) (args : List (String × LogValue)) : Logger :=
  { s with params := args.foldl (fun m kv => mapInsert m kv.1 kv.2) s.params }

/-- `Logger.WithLineParams`: add key/value pairs appended to the next logged
line. -/
def Logger.WithLineParams (s : Logger) (args : List (String × LogValue)) :
    Logger :=
  { s with lineParams := args.foldl (fun m kv => mapInsert m kv.1 kv.2) s.lineParams }

/-- `Logger.disableOutput`. -/
def Logger.disableOutput (s : Logger) : Logger :=
  { s with disabled := true }

/-- Render a `LogValue` the way Go's `%v` does for the values the logger
formats into a line. -/
def logValueStr : LogValue → String
  | .str s => s
  | .strList l => "[" ++ String.intercalate " " l ++ "]"

/-- `formatMsgAndArgs`: the message alone, or the message followed by
`; k=(qv)` renderings of the line params (values in single quotes). -/
def formatMsgAndArgs (msg : String) (args : List (String × LogValue)) : String :=
  if args.isEmpty then msg
  else
    msg ++ "; " ++ String.intercalate "; "
      (args.map fun kv => kv.1 ++ "=\x27" ++ logValueStr kv.2 ++ "\x27")

/-- `Logger.legacyLog`: fold line params into a stage description and clear
them. -/
def Logger.legacyLog (s : Logger) (msg : String)
    (args : List (String × LogValue)) : Logger :=
  let s1 := if args.isEmpty then s else s.WithLineParams args
  let s2 := s1.AddStage (formatMsgAndArgs msg s1.lineParams)
  { s2 with lineParams := [] }

/-- `Logger.Info`: in combined mode accumulate a stage; otherwise emit one
info record carrying the accumulated params and the call's args. -/
def Logger.Info (s : Logger) (msg : String) (args : List (String × LogValue)) :
    Logger × List LogRecord :=
  if s.combinedMode then (s.legacyLog msg args, [])
  else (s, [⟨.info, msg, s.params ++ args, none⟩])

/-- `Logger.Error`: in combined mode accumulate a stage and latch the
error-level flag; otherwise emit one error record with the call's args. -/
def Logger.Error (s : Logger) (msg : String) (args : List (String × LogValue)) :
    Logger × List LogRecord :=
  if s.combinedMode then ({ s.legacyLog msg args with errorLevel := true }, [])
  else (s, [⟨.error, msg, args, none⟩])

/-- The summary truncation of `Logger.Log`: cut at 100 characters and append
the continuation marker. -/
def truncateDescription (d : String) : String :=
  if d.length > 100 then d.take 100 ++ "..." else d

/-- `Logger.Log` (`logger.go` lines 232–260): emit the combined record —
nothing when disabled, not in combined mode, or nothing was accumulated;
otherwise one record with every param, the ordered stages (as the `stages`
attribute, present iff nonempty), the truncated `; `-joined summary, and
severity error iff any `Error` call occurred. -/
def Logger.Log (s : Logger) : List LogRecord :=
  if s.disabled then []
  else if !s.combinedMode then []
  else if s.stages.isEmpty && s.params.isEmpty then []
  else
    let stagesAttr := if s.stages.length > 0 then some s.stages else none
    let description := String.intercalate "; " s.stages
    [⟨if s.errorLevel then .error else .info,
      truncateDescription description, s.params, stagesAttr⟩]

/-- An accumulation call made on one story logger during one unit of work. -/
inductive LogOp where
  | addStage (d : String)
  | addParam (k : String) (v : LogValue)
  | infoCall (msg : String)
  | errorCall (msg : String)
  deriving DecidableEq, Repr

/-- Apply one accumulation call to a logger (the emitted records of
`Info`/`Error` are empty in combined mode). -/
def applyOp (s : Logger) (op : LogOp) : Logger :=
  match op with
  | .addStage d => s.AddStage d
  | .addParam k v => s.AddParam k v
  | .infoCall m => (s.Info m []).1
  | .errorCall m => (s.Error m []).1

/-- Apply a sequence of accumulation calls. -/
def applyOps (s : Logger) (ops : List LogOp) : Logger :=
  ops.foldl applyOp s

/-- The stage descriptions an op sequence accumulates, in call order
(`Info`/`Error` calls in combined mode also add their message as a stage). -/
def opsStages (ops : List LogOp) : List String :=
  ops.filterMap fun
    | .addStage d => some d
    | .infoCall m => some m
    | .errorCall m => some m
    | .addParam _ _ => none

/-- The params map an op sequence accumulates, continuing from `m`. -/
def opsParamsFrom (m : List (String × LogValue)) (ops : List LogOp) :
    List (String × LogValue) :=
  ops.foldl
    (fun acc op => match op with
      | .addParam k v => mapInsert acc k v
      | _ => acc) m

/-- The params map an op sequence accumulates from an empty logger. -/
def opsParams (ops : List LogOp) : List (String × LogValue) :=
  opsParamsFrom [] ops

/-- Whether an op sequence contains an `Error` call. -/
def opsHasError (ops : List LogOp) : Bool :=
  ops.any fun
    | .errorCall _ => true
    | _ => false

/-! ### Telemetry aggregator (`metrics.go`)

The `float64` metric value is an opaque payload (modelled as `Int`; the code
never computes with it).  The `data` map is an association list with unique
namespace keys.   The collector goroutine, the stop signal and `Shutdown`'s
final flush are modelled as a transition system whose events are the atomic
steps the mutex and the channels serialise: a `submit` enqueues on the
buffered input channel, a `collect` is one iteration of `startCollector`
taking the input case of the `select`, `stop` is the iteration taking the
stop case (after which the collector has returned), and `flushStep` is one
`flush` call (periodic or final). -/

/-- `MetricsInput` (namespace, metric name, value, dimensions). -/
structure MetricsInput where
  ns : String
  metricName : String
  value : Int
  dimensions : List (String × String)
  deriving DecidableEq, Repr

/-- `types.MetricDatum` as built by `convertInput`. -/
structure MetricDatum where
  metricName : String
  value : Int
  dimensions : List (String × String)
  timestamp : Nat
  deriving DecidableEq, Repr

/-- `convertInput`: copy name, value and dimensions and stamp the current
time. -/
def convertInput (input : MetricsInput) (now : Nat) : MetricDatum :=
  { metricName := input.metricName, value := input.value
    dimensions := input.dimensions, timestamp := now }

/-- `m.data[ns] = append(m.data[ns], d)` on the association-list model of the
namespace map. -/
def bufAppend (data : List (String × List MetricDatum)) (ns : String)
    (d : MetricDatum) : List (String × List MetricDatum) :=
  match data with
  | [] => [(ns, [d])]
  | (k, v) :: rest =>
    if k = ns then (k, v ++ [d]) :: rest else (k, v) :: bufAppend rest ns d

/-- `metrics.flush`: under the lock, copy the buffer and clear it; then make
one `PutMetricData` call per namespace carrying that namespace's accumulated
data (no call at all when the buffer was empty).  Returns the buffer left
behind and the sink calls made. -/
def flush (data : List (String × List MetricDatum)) :
    List (String × List MetricDatum) × List (String × List MetricDatum) :=
  let mapCopy := data
  let found := decide (data ≠ [])
  let cleared : List (String × List MetricDatum) := []
  if found then (cleared, mapCopy) else (cleared, [])

/-- One serialised step of the aggregator's concurrent execution. -/
inductive MetricsEvent where
  | submit (m : MetricsInput)
  | collect (now : Nat)
  | stop
  | flushStep
  deriving Repr

/-- The aggregator state: the pending contents of the buffered input channel,
the namespace map, whether the collector has returned, and the sink calls
made so far. -/
structure MetricsState where
  inputChan : List MetricsInput
  data : List (String × List MetricDatum)
  stopped : Bool
  sinkCalls : List (String × List MetricDatum)
  deriving Repr

/-- The state after `setup`: everything empty, collector running. -/
def metricsInit : MetricsState :=
  { inputChan := [], data := [], stopped := false, sinkCalls := [] }

/-- One step of the aggregator.  A `collect` does nothing once the collector
has returned (nobody receives from `inputChan` any more) or when the channel
is empty; a `flushStep` swaps the buffer out and appends the sink calls. -/
def metricsStep (s : MetricsState) (e : MetricsEvent) : MetricsState :=
  match e with
  | .submit m => { s with inputChan := s.inputChan ++ [m] }
  | .collect now =>
    if s.stopped then s
    else
      match s.inputChan with
      | [] => s
      | input :: rest =>
        { s with inputChan := rest
                 data := bufAppend s.data input.ns (convertInput input now) }
  | .stop => { s with stopped := true }
  | .flushStep =>
    let fl := flush s.data
    { s with data := fl.1, sinkCalls := s.sinkCalls ++ fl.2 }

/-- Run the aggregator over a serialised schedule of steps. -/
def metricsRun (events : List MetricsEvent) : MetricsState :=
  events.foldl metricsStep metricsInit

/-- `metrics.Shutdown`: send on `stopChan` (one collector iteration takes the
stop case and returns), then call `flush` once, synchronously. -/
def shutdownEvents : List MetricsEvent :=
  [.stop, .flushStep]

/-- How many times a datum was delivered to the sink. -/
def sinkDeliveries (s : MetricsState) (d : MetricDatum) : Nat :=
  (s.sinkCalls.map fun c => c.2.count d).sum

/-! ### Concrete fixtures used by witnesses -/

/-- A concrete decoder for witnesses (`T := String`). -/
def u0 : String → Except String String :=
  fun s => if s = "bad json" then .error "unexpected end of JSON input" else .ok s

/-- A concrete processor for witnesses: one failing value, one retryable
failure, one panicking value, everything else succeeds. -/
def p0 : String → ProcResult :=
  fun t =>
    if t = "boom" then .err (.base "something bad happened")
    else if t = "temp" then .err (.retryable "throttled" true)
    else if t = "panic" then
      .panicked "oh no" "goroutine 1 [running]:\nmain.main()\n\t/app/main.go:10 +0x1a\n"
    else .ok

/-- A two-record event: the first succeeds, the second returns an error; both
signals are observed at instant 0. -/
def ev1 : List (SQSMessage × Nat) :=
  [(⟨"h1", "ok"⟩, 0), (⟨"h2", "boom"⟩, 0)]

/-! ### Claims -/

/-- C3: the handler built by `GetSQSHandler` returns a non-nil error iff the
invocation context has no deadline: without a deadline it fails fast with the
configuration error `context must have a deadline set` and processes no
record (empty trace); with any deadline it returns an `SQSEventResponse` and
nil error regardless of how records fare. -/
theorem c3_deadline_validation {T : Type} (unmarshal : String → Except String T)
    (proc : T → ProcResult) (event : List (SQSMessage × Nat)) :
    getSQSHandlerFull unmarshal proc none event
        = (.error "context must have a deadline set", []) ∧
    ∀ dl, ∃ resp, getSQSHandler unmarshal proc (some dl) event = .ok resp :=
  ⟨rfl, fun dl => ⟨_, getSQSHandler_eq unmarshal proc dl event⟩⟩

/-- C4: a record whose completion signal is not observed strictly before the
effective deadline (context deadline minus the 500ms margin) is marked timed
out by its waiter whatever its eventual signal would have been (the signal is
discarded, no cancellation reaches the goroutine), its receipt handle is in
`BatchItemFailures`, and the handler still returns normally. -/
theorem c4_timeout_wins {T : Type} (unmarshal : String → Except String T)
    (proc : T → ProcResult) (dl : Nat) (event : List (SQSMessage × Nat))
    (rec : SQSMessage) (t : Nat) (hin : (rec, t) ∈ event)
    (hlate : ¬ t < dl - 500) :
    (∀ sig : Bool, asyncWaitForResult sig (decide (t < dl - 500))
        = { failed := false, timedOut := true }) ∧
    rec.receiptHandle ∈ (batchFailures unmarshal proc dl event).map
        SQSBatchItemFailure.itemIdentifier ∧
    getSQSHandler unmarshal proc (some dl) event
        = .ok ⟨batchFailures unmarshal proc dl event⟩ := by
  refine ⟨fun sig => by simp [asyncWaitForResult, hlate], ?_,
    getSQSHandler_eq unmarshal proc dl event⟩
  have hf : recordFails unmarshal proc dl (rec, t) = true := by
    cases h : recordFails unmarshal proc dl (rec, t) with
    | false => exact absurd ((recordFails_iff unmarshal proc dl (rec, t)).mp h).2 hlate
    | true => rfl
  exact mem_batchFailures unmarshal proc dl event (rec, t) hin hf

/-- C4 witness: a record whose signal arrives at instant 600 against deadline
1000 (effective 500) is reported timed out. -/
theorem c4_timeout_wins_witness :
    ((⟨"h1", "ok"⟩, 600) ∈ [((⟨"h1", "ok"⟩ : SQSMessage), 600)] ∧ ¬ (600 : Nat) < 1000 - 500) ∧
    ((∀ sig : Bool, asyncWaitForResult sig (decide ((600 : Nat) < 1000 - 500))
        = { failed := false, timedOut := true }) ∧
    SQSMessage.receiptHandle ⟨"h1", "ok"⟩
        ∈ (batchFailures u0 p0 1000 [(⟨"h1", "ok"⟩, 600)]).map
          SQSBatchItemFailure.itemIdentifier ∧
    getSQSHandler u0 p0 (some 1000) [(⟨"h1", "ok"⟩, 600)]
        = .ok ⟨batchFailures u0 p0 1000 [(⟨"h1", "ok"⟩, 600)]⟩) :=
  ⟨⟨by decide, by decide⟩,
    c4_timeout_wins u0 p0 1000 [(⟨"h1", "ok"⟩, 600)] ⟨"h1", "ok"⟩ 600
      (by decide) (by decide)⟩

/-- C9: a record whose processing returns a non-nil error signals failure and
joins `BatchItemFailures` regardless of how `IsErrorRetryable` classifies the
error; the classification (which follows the `Unwrap` chain) only selects the
log severity (info when retryable, error otherwise) of the single log
statement issued, never the outcome. -/
theorem c9_retryable_is_observability_only {T : Type}
    (unmarshal : String → Except String T) (proc : T → ProcResult)
    (rec : SQSMessage) (tv : T) (e : GoError)
    (hu : unmarshal rec.body = .ok tv) (hp : proc tv = .err e) :
    ((processRecord unmarshal proc rec).signal = false ∧
     (processRecord unmarshal proc rec).procInvoked = true ∧
     (processRecord unmarshal proc rec).logs =
       [⟨if IsErrorRetryable e then .info else .error,
         "Processing returned error: " ++ e.msg, [("body", .str rec.body)]⟩]) ∧
    (∀ m inner, IsErrorRetryable (.wrap m inner) = IsErrorRetryable inner) ∧
    (∀ dl (event : List (SQSMessage × Nat)) t, (rec, t) ∈ event →
      rec.receiptHandle ∈ (batchFailures unmarshal proc dl event).map
        SQSBatchItemFailure.itemIdentifier) := by
  refine ⟨by simp [processRecord, hu, hp], fun m inner => rfl, ?_⟩
  intro dl event t hin
  have hsig : (processRecord unmarshal proc rec).signal = false := by
    simp [processRecord, hu, hp]
  have hf : recordFails unmarshal proc dl (rec, t) = true := by
    cases h : recordFails unmarshal proc dl (rec, t) with
    | false =>
      have := ((recordFails_iff unmarshal proc dl (rec, t)).mp h).1
      rw [hsig] at this
      exact absurd this (by simp)
    | true => rfl
  exact mem_batchFailures unmarshal proc dl event (rec, t) hin hf

/-- C9 witness: a record returning a retryable error is still reported for
redelivery, with an info-severity log line. -/
theorem c9_retryable_is_observability_only_witness :
    (u0 "temp" = .ok "temp" ∧ p0 "temp" = .err (.retryable "throttled" true)) ∧
    (((processRecord u0 p0 ⟨"h3", "temp"⟩).signal = false ∧
      (processRecord u0 p0 ⟨"h3", "temp"⟩).procInvoked = true ∧
      (processRecord u0 p0 ⟨"h3", "temp"⟩).logs =
        [⟨if IsErrorRetryable (.retryable "throttled" true) then .info else .error,
          "Processing returned error: " ++ (GoError.retryable "throttled" true).msg,
          [("body", .str (SQSMessage.body ⟨"h3", "temp"⟩))]⟩]) ∧
     (∀ m inner, IsErrorRetryable (.wrap m inner) = IsErrorRetryable inner) ∧
     (∀ dl (event : List (SQSMessage × Nat)) t, ((⟨"h3", "temp"⟩ : SQSMessage), t) ∈ event →
       SQSMessage.receiptHandle ⟨"h3", "temp"⟩
         ∈ (batchFailures u0 p0 dl event).map SQSBatchItemFailure.itemIdentifier)) :=
  ⟨⟨rfl, rfl⟩,
    c9_retryable_is_observability_only u0 p0 ⟨"h3", "temp"⟩ "temp"
      (.retryable "throttled" true) rfl rfl⟩

/-- C10: a record whose body fails to unmarshal never reaches the processor;
the unmarshal error and the raw body are logged at error severity, the record
signals failure and its receipt handle joins `BatchItemFailures`, while the
invocation itself still returns normally. -/
theorem c10_malformed_body_is_per_item_failure {T : Type}
    (unmarshal : String → Except String T) (proc : T → ProcResult)
    (rec : SQSMessage) (em : String) (hu : unmarshal rec.body = .error em) :
    ((processRecord unmarshal proc rec).procInvoked = false ∧
     (processRecord unmarshal proc rec).signal = false ∧
     (processRecord unmarshal proc rec).logs =
       [⟨.error, "JSON unmarshal returned error",
         [("error", .str em), ("body", .str rec.body)]⟩]) ∧
    (∀ dl (event : List (SQSMessage × Nat)) t, (rec, t) ∈ event →
      rec.receiptHandle ∈ (batchFailures unmarshal proc dl event).map
        SQSBatchItemFailure.itemIdentifier ∧
      getSQSHandler unmarshal proc (some dl) event
        = .ok ⟨batchFailures unmarshal proc dl event⟩) := by
  refine ⟨by simp [processRecord, hu], ?_⟩
  intro dl event t hin
  have hsig : (processRecord unmarshal proc rec).signal = false := by
    simp [processRecord, hu]
  have hf : recordFails unmarshal proc dl (rec, t) = true := by
    cases h : recordFails unmarshal proc dl (rec, t) with
    | false =>
      have := ((recordFails_iff unmarshal proc dl (rec, t)).mp h).1
      rw [hsig] at this
      exact absurd this (by simp)
    | true => rfl
  exact ⟨mem_batchFailures unmarshal proc dl event (rec, t) hin hf,
    getSQSHandler_eq unmarshal proc dl event⟩

/-- C10 witness: a record with a malformed body is reported for redelivery
without the processor being invoked. -/
theorem c10_malformed_body_is_per_item_failure_witness :
    (u0 "bad json" = .error "unexpected end of JSON input") ∧
    (((processRecord u0 p0 ⟨"h4", "bad json"⟩).procInvoked = false ∧
      (processRecord u0 p0 ⟨"h4", "bad json"⟩).signal = false ∧
      (processRecord u0 p0 ⟨"h4", "bad json"⟩).logs =
        [⟨.error, "JSON unmarshal returned error",
          [("error", .str "unexpected end of JSON input"),
           ("body", .str (SQSMessage.body ⟨"h4", "bad json"⟩))]⟩]) ∧
     (∀ dl (event : List (SQSMessage × Nat)) t,
        ((⟨"h4", "bad json"⟩ : SQSMessage), t) ∈ event →
       SQSMessage.receiptHandle ⟨"h4", "bad json"⟩
         ∈ (batchFailures u0 p0 dl event).map SQSBatchItemFailure.itemIdentifier ∧
       getSQSHandler u0 p0 (some dl) event
         = .ok ⟨batchFailures u0 p0 dl event⟩)) :=
  ⟨rfl,
    c10_malformed_body_is_per_item_failure u0 p0 ⟨"h4", "bad json"⟩
      "unexpected end of JSON input" rfl⟩

/-- C1: for every SQS batch event (receipt handles pairwise distinct, as AWS
guarantees for one delivered batch) and every processor, the failure list is
drawn from the input handles, has no duplicates, contains a handle iff the
corresponding record failed (errored, panicked, failed to unmarshal, or did
not signal success strictly before the effective deadline), never contains a
succeeded record's handle, and is empty when every record succeeds in time. -/
theorem c1_batch_result_exact {T : Type} (unmarshal : String → Except String T)
    (proc : T → ProcResult) (dl : Nat) (event : List (SQSMessage × Nat))
    (hnodup : (eventHandles event).Nodup) :
    ∃ resp, getSQSHandler unmarshal proc (some dl) event = .ok resp ∧
      (∀ f ∈ resp.batchItemFailures, f.itemIdentifier ∈ eventHandles event) ∧
      (resp.batchItemFailures.map SQSBatchItemFailure.itemIdentifier).Nodup ∧
      (∀ h, h ∈ resp.batchItemFailures.map SQSBatchItemFailure.itemIdentifier ↔
        ∃ ri ∈ event, ri.1.receiptHandle = h ∧
          recordFails unmarshal proc dl ri = true) ∧
      (∀ ri ∈ event, recordFails unmarshal proc dl ri = false →
        ri.1.receiptHandle
          ∉ resp.batchItemFailures.map SQSBatchItemFailure.itemIdentifier) ∧
      (∀ ri ∈ event, recordFails unmarshal proc dl ri = false ↔
        ((processRecord unmarshal proc ri.1).signal = true ∧ ri.2 < dl - 500)) ∧
      ((∀ ri ∈ event,
          (processRecord unmarshal proc ri.1).signal = true ∧ ri.2 < dl - 500) →
        resp.batchItemFailures = []) := by
  refine ⟨⟨batchFailures unmarshal proc dl event⟩,
    getSQSHandler_eq unmarshal proc dl event, ?_, ?_, ?_, ?_, ?_, ?_⟩
  · intro f hf
    simp only [batchFailures, List.mem_map, List.mem_filter] at hf
    obtain ⟨ri, ⟨hmem, _⟩, rfl⟩ := hf
    exact List.mem_map_of_mem _ hmem
  · have heq : (batchFailures unmarshal proc dl event).map
        SQSBatchItemFailure.itemIdentifier
        = (event.filter (recordFails unmarshal proc dl)).map
            (fun ri => ri.1.receiptHandle) := by
      simp only [batchFailures, List.map_map]
      rfl
    rw [heq]
    exact List.Nodup.sublist
      ((List.filter_sublist event).map (fun ri => ri.1.receiptHandle)) hnodup
  · intro h
    simp only [batchFailures, List.mem_map, List.mem_filter]
    constructor
    · rintro ⟨f, ⟨ri, ⟨hmem, hf⟩, rfl⟩, rfl⟩
      exact ⟨ri, hmem, rfl, hf⟩
    · rintro ⟨ri, hmem, rfl, hf⟩
      exact ⟨⟨ri.1.receiptHandle⟩, ⟨ri, ⟨hmem, hf⟩, rfl⟩, rfl⟩
  · intro ri hmem hok hcontra
    simp only [batchFailures, List.mem_map, List.mem_filter] at hcontra
    obtain ⟨f, ⟨rj, ⟨hjm, hjf⟩, rfl⟩, heq⟩ := hcontra
    have hrj : rj = ri :=
      mem_eq_of_nodup_map (fun ri : SQSMessage × Nat => ri.1.receiptHandle) event
        (show ((event.map fun ri => ri.1.receiptHandle)).Nodup from hnodup)
        rj hjm ri hmem heq
    rw [hrj, hok] at hjf
    exact Bool.false_ne_true hjf
  · intro ri hmem
    exact recordFails_iff unmarshal proc dl ri
  · intro hall
    have hfil : event.filter (recordFails unmarshal proc dl) = [] := by
      rw [List.filter_eq_nil_iff]
      intro ri hmem
      rw [(recordFails_iff unmarshal proc dl ri).mpr (hall ri hmem)]
      simp
    simp [batchFailures, hfil]

/-- C1 witness: for the two-record event `ev1` (one success, one error) the
handler returns exactly the failing record's handle. -/
theorem c1_batch_result_exact_witness :
    (eventHandles ev1).Nodup ∧
    ∃ resp, getSQSHandler u0 p0 (some 1000) ev1 = .ok resp ∧
      (∀ f ∈ resp.batchItemFailures, f.itemIdentifier ∈ eventHandles ev1) ∧
      (resp.batchItemFailures.map SQSBatchItemFailure.itemIdentifier).Nodup ∧
      (∀ h, h ∈ resp.batchItemFailures.map SQSBatchItemFailure.itemIdentifier ↔
        ∃ ri ∈ ev1, ri.1.receiptHandle = h ∧ recordFails u0 p0 1000 ri = true) ∧
      (∀ ri ∈ ev1, recordFails u0 p0 1000 ri = false →
        ri.1.receiptHandle
          ∉ resp.batchItemFailures.map SQSBatchItemFailure.itemIdentifier) ∧
      (∀ ri ∈ ev1, recordFails u0 p0 1000 ri = false ↔
        ((processRecord u0 p0 ri.1).signal = true ∧ ri.2 < 1000 - 500)) ∧
      ((∀ ri ∈ ev1,
          (processRecord u0 p0 ri.1).signal = true ∧ ri.2 < 1000 - 500) →
        resp.batchItemFailures = []) :=
  ⟨by decide, c1_batch_result_exact u0 p0 1000 ev1 (by decide)⟩

/-- C2: in a batch (pairwise-distinct receipt handles) containing a record A
whose processing panics and a record B whose processing returns nil within
the deadline, the handler returns a response and nil error, A's handle is in
the failure list, B's is not, and the panic is recovered into a single
error-severity log statement against A's own context carrying the stack
trace as a slice of strings. -/
theorem c2_panic_is_isolated {T : Type} (unmarshal : String → Except String T)
    (proc : T → ProcResult) (dl : Nat) (event : List (SQSMessage × Nat))
    (A B : SQSMessage) (tA tB : T) (pm pstack : String) (sA sB : Nat)
    (huA : unmarshal A.body = .ok tA) (hpA : proc tA = .panicked pm pstack)
    (huB : unmarshal B.body = .ok tB) (hpB : proc tB = .ok)
    (hAin : (A, sA) ∈ event) (hBin : (B, sB) ∈ event) (hBtime : sB < dl - 500)
    (hnodup : (eventHandles event).Nodup) :
    (∃ resp, getSQSHandler unmarshal proc (some dl) event = .ok resp ∧
      A.receiptHandle ∈ resp.batchItemFailures.map SQSBatchItemFailure.itemIdentifier ∧
      B.receiptHandle ∉ resp.batchItemFailures.map SQSBatchItemFailure.itemIdentifier) ∧
    (processRecord unmarshal proc A).logs =
      [⟨.error, "Goroutine panicked: " ++ pm,
        [("panicStack", .strList (getStackTraceAsSlice pstack))]⟩] := by
  have hsigA : (processRecord unmarshal proc A).signal = false := by
    simp [processRecord, huA, hpA]
  have hsigB : (processRecord unmarshal proc B).signal = true := by
    simp [processRecord, huB, hpB]
  refine ⟨⟨⟨batchFailures unmarshal proc dl event⟩,
    getSQSHandler_eq unmarshal proc dl event, ?_, ?_⟩, by simp [processRecord, huA, hpA]⟩
  · have hf : recordFails unmarshal proc dl (A, sA) = true := by
      cases h : recordFails unmarshal proc dl (A, sA) with
      | false =>
        have := ((recordFails_iff unmarshal proc dl (A, sA)).mp h).1
        rw [hsigA] at this
        exact absurd this (by simp)
      | true => rfl
    exact mem_batchFailures unmarshal proc dl event (A, sA) hAin hf
  · intro hcontra
    simp only [batchFailures, List.mem_map, List.mem_filter] at hcontra
    obtain ⟨f, ⟨rj, ⟨hjm, hjf⟩, rfl⟩, heq⟩ := hcontra
    have hrj : rj = (B, sB) :=
      mem_eq_of_nodup_map (fun ri : SQSMessage × Nat => ri.1.receiptHandle) event
        (show ((event.map fun ri => ri.1.receiptHandle)).Nodup from hnodup)
        rj hjm (B, sB) hBin heq
    rw [hrj, (recordFails_iff unmarshal proc dl (B, sB)).mpr ⟨hsigB, hBtime⟩] at hjf
    exact Bool.false_ne_true hjf

/-- C2 witness: a two-record batch in which the first record panics and the
second succeeds at instant 0 against deadline 1000. -/
theorem c2_panic_is_isolated_witness :
    (u0 "panic" = .ok "panic" ∧
     p0 "panic" = .panicked "oh no"
       "goroutine 1 [running]:\nmain.main()\n\t/app/main.go:10 +0x1a\n" ∧
     (0 : Nat) < 1000 - 500 ∧
     (eventHandles [(⟨"hA", "panic"⟩, 0), (⟨"hB", "ok"⟩, 0)]).Nodup) ∧
    ((∃ resp, getSQSHandler u0 p0 (some 1000)
          [(⟨"hA", "panic"⟩, 0), (⟨"hB", "ok"⟩, 0)] = .ok resp ∧
      SQSMessage.receiptHandle ⟨"hA", "panic"⟩
        ∈ resp.batchItemFailures.map SQSBatchItemFailure.itemIdentifier ∧
      SQSMessage.receiptHandle ⟨"hB", "ok"⟩
        ∉ resp.batchItemFailures.map SQSBatchItemFailure.itemIdentifier) ∧
    (processRecord u0 p0 ⟨"hA", "panic"⟩).logs =
      [⟨.error, "Goroutine panicked: " ++ "oh no",
        [("panicStack", .strList (getStackTraceAsSlice
          "goroutine 1 [running]:\nmain.main()\n\t/app/main.go:10 +0x1a\n"))]⟩]) :=
  ⟨⟨rfl, rfl, by decide, by decide⟩,
    c2_panic_is_isolated u0 p0 1000 [(⟨"hA", "panic"⟩, 0), (⟨"hB", "ok"⟩, 0)]
      ⟨"hA", "panic"⟩ ⟨"hB", "ok"⟩ "panic" "ok" "oh no"
      "goroutine 1 [running]:\nmain.main()\n\t/app/main.go:10 +0x1a\n" 0 0
      rfl rfl rfl rfl (by decide) (by decide) (by decide) (by decide)⟩

/-- Accumulation calls on a combined-mode logger with empty line params keep
`combinedMode`, keep `lineParams` empty, extend the stages in call order,
thread the params map, leave `disabled` alone and latch `errorLevel` on any
`Error` call. -/
lemma applyOps_fields : ∀ (ops : List LogOp) (s : Logger),
    s.combinedMode = true → s.lineParams = [] →
    applyOps s ops =
      { stages := s.stages ++ opsStages ops
        params := opsParamsFrom s.params ops
        lineParams := []
        disabled := s.disabled
        errorLevel := s.errorLevel || opsHasError ops
        combinedMode := true } := by
  intro ops
  induction ops with
  | nil =>
    intro s hcm hlp
    obtain ⟨a, b, c, d, e, f⟩ := s
    simp_all [applyOps, opsStages, opsParamsFrom, opsHasError]
  | cons op ops ih =>
    intro s hcm hlp
    show applyOps (applyOp s op) ops = _
    cases op with
    | addStage d =>
      have hstep : applyOp s (.addStage d) = s.AddStage d := rfl
      rw [hstep,
        ih (s.AddStage d) (by simp [Logger.AddStage, hcm]) (by simp [Logger.AddStage, hlp])]
      simp [Logger.AddStage, opsStages, opsParamsFrom, opsHasError, List.filterMap_cons]
    | addParam k v =>
      have hstep : applyOp s (.addParam k v) = s.AddParam k v := rfl
      rw [hstep,
        ih (s.AddParam k v) (by simp [Logger.AddParam, hcm]) (by simp [Logger.AddParam, hlp])]
      simp [Logger.AddParam, opsStages, opsParamsFrom, opsHasError, List.filterMap_cons]
    | infoCall m =>
      have hstep : applyOp s (.infoCall m) = s.AddStage m := by
        simp [applyOp, Logger.Info, hcm, Logger.legacyLog, formatMsgAndArgs, hlp,
          Logger.AddStage]
      rw [hstep,
        ih (s.AddStage m) (by simp [Logger.AddStage, hcm]) (by simp [Logger.AddStage, hlp])]
      simp [Logger.AddStage, opsStages, opsParamsFrom, opsHasError, List.filterMap_cons]
    | errorCall m =>
      have hstep : applyOp s (.errorCall m) =
          { s.AddStage m with errorLevel := true } := by
        simp [applyOp, Logger.Error, hcm, Logger.legacyLog, formatMsgAndArgs, hlp,
          Logger.AddStage]
      rw [hstep,
        ih { s.AddStage m with errorLevel := true }
          (by simp [Logger.AddStage, hcm]) (by simp [Logger.AddStage, hlp])]
      simp [Logger.AddStage, opsStages, opsParamsFrom, opsHasError, List.filterMap_cons]

/-- C7: a combined-mode story logger that accumulated at least one stage or
param emits on `Log()` exactly one record containing every accumulated
key/value pair, the stage descriptions in call order, and a summary equal to
the stages joined by `; ` truncated at 100 characters with a `...` marker;
its severity is error iff an `Error` call occurred, else info. -/
theorem c7_combined_record (ops : List LogOp)
    (h : opsStages ops ≠ [] ∨ opsParams ops ≠ []) :
    (applyOps { newStoryLogger with combinedMode := true } ops).Log =
      [⟨if opsHasError ops then .error else .info,
        truncateDescription (String.intercalate "; " (opsStages ops)),
        opsParams ops,
        if opsStages ops = [] then none else some (opsStages ops)⟩] := by
  rw [applyOps_fields ops { newStoryLogger with combinedMode := true } rfl rfl]
  simp only [newStoryLogger, List.nil_append, Bool.false_or]
  by_cases hs : opsStages ops = []
  · rcases h with h | h
    · exact absurd hs h
    · have hp : opsParamsFrom [] ops ≠ [] := h
      simp [Logger.Log, opsParams, hs, List.isEmpty_eq_true, hp]
  · have hlen : (opsStages ops).length > 0 := List.length_pos.mpr hs
    simp [Logger.Log, List.isEmpty_eq_true, hs, hlen, opsParams, Nat.pos_iff_ne_zero]

/-- C7 witness: one stage, one param and one `Error` call produce a single
error-severity combined record. -/
theorem c7_combined_record_witness :
    (opsStages [.addStage "Validation succeeded",
        .addParam "key" (.str "value"),
        .errorCall "Invocation returned error"] ≠ [] ∨
     opsParams [.addStage "Validation succeeded",
        .addParam "key" (.str "value"),
        .errorCall "Invocation returned error"] ≠ []) ∧
    (applyOps { newStoryLogger with combinedMode := true }
        [.addStage "Validation succeeded",
         .addParam "key" (.str "value"),
         .errorCall "Invocation returned error"]).Log =
      [⟨if opsHasError [.addStage "Validation succeeded",
            .addParam "key" (.str "value"),
            .errorCall "Invocation returned error"] then .error else .info,
        truncateDescription (String.intercalate "; "
          (opsStages [.addStage "Validation succeeded",
            .addParam "key" (.str "value"),
            .errorCall "Invocation returned error"])),
        opsParams [.addStage "Validation succeeded",
          .addParam "key" (.str "value"),
          .errorCall "Invocation returned error"],
        if opsStages [.addStage "Validation succeeded",
            .addParam "key" (.str "value"),
            .errorCall "Invocation returned error"] = [] then none
        else some (opsStages [.addStage "Validation succeeded",
          .addParam "key" (.str "value"),
          .errorCall "Invocation returned error"])⟩] :=
  ⟨Or.inl (by decide),
    c7_combined_record
      [.addStage "Validation succeeded",
       .addParam "key" (.str "value"),
       .errorCall "Invocation returned error"]
      (Or.inl (by decide))⟩

/-- C8 counterexample: `Log()` does not latch after emitting — on a
combined-mode logger with one stage, a first call emits one record and a
second call emits it again, so the logger's lifetime output after two calls
is two records, not at most one. -/
theorem c8_second_log_call_duplicates :
    (Logger.AddStage { newStoryLogger with combinedMode := true }
        "Validation succeeded").Log.length = 1 ∧
    ((Logger.AddStage { newStoryLogger with combinedMode := true }
        "Validation succeeded").Log ++
     (Logger.AddStage { newStoryLogger with combinedMode := true }
        "Validation succeeded").Log).length = 2 ∧
    ¬ ((Logger.AddStage { newStoryLogger with combinedMode := true }
        "Validation succeeded").Log ++
       (Logger.AddStage { newStoryLogger with combinedMode := true }
        "Validation succeeded").Log).length ≤ 1 := by
  refine ⟨rfl, rfl, by decide⟩

/-- C8 (amended): each individual `Log()` call emits at most one combined
record, and a logger on which `disableOutput()` has been called emits nothing
from `Log()`; the code does not guard against a second `Log()` call, which
re-emits the combined record. -/
theorem c8_at_most_one_per_call (s : Logger) :
    s.Log.length ≤ 1 ∧ (s.disabled = true → s.Log = []) := by
  constructor
  · by_cases h1 : s.disabled <;>
      by_cases h2 : s.combinedMode <;>
        by_cases h3 : s.stages.isEmpty && s.params.isEmpty <;>
          simp [Logger.Log, h1, h2, h3]
  · intro hd
    simp [Logger.Log, hd]

/-- C8 amended-claim witness: a disabled logger emits nothing even with an
accumulated stage. -/
theorem c8_at_most_one_per_call_witness :
    (Logger.disableOutput (Logger.AddStage
        { newStoryLogger with combinedMode := true } "Validation succeeded")).disabled
      = true ∧
    (Logger.disableOutput (Logger.AddStage
        { newStoryLogger with combinedMode := true } "Validation succeeded")).Log.length ≤ 1 ∧
    (Logger.disableOutput (Logger.AddStage
        { newStoryLogger with combinedMode := true } "Validation succeeded")).Log = [] :=
  ⟨rfl,
   (c8_at_most_one_per_call _).1,
   (c8_at_most_one_per_call (Logger.disableOutput (Logger.AddStage
      { newStoryLogger with combinedMode := true } "Validation succeeded"))).2 rfl⟩

/-- `flush` always leaves an empty buffer and calls the sink exactly with the
buffer's entries. -/
lemma flush_eq (data : List (String × List MetricDatum)) :
    flush data = ([], data) := by
  cases data <;> simp [flush]

/-- In an association list with unique keys, filtering for a present key
yields exactly that entry. -/
lemma filter_key_unique :
    ∀ (l : List (String × List MetricDatum)), (l.map Prod.fst).Nodup →
      ∀ ns ms, (ns, ms) ∈ l →
        l.filter (fun c => decide (c.1 = ns)) = [(ns, ms)] := by
  intro l
  induction l with
  | nil => intro _ ns ms hmem; simp at hmem
  | cons a rest ih =>
    intro hnd ns ms hmem
    rw [List.map_cons, List.nodup_cons] at hnd
    obtain ⟨hna, hnd'⟩ := hnd
    rcases List.mem_cons.mp hmem with heq | hmem'
    · subst heq
      have hrest : rest.filter (fun c => decide (c.1 = ns)) = [] := by
        rw [List.filter_eq_nil_iff]
        intro c hc
        simp only [decide_eq_true_eq]
        intro hkey
        exact hna (by simpa [hkey] using List.mem_map_of_mem Prod.fst hc)
      simp [List.filter_cons, hrest]
    · have hkey : ¬ a.1 = ns := by
        intro hkey
        exact hna (hkey ▸ (List.mem_map_of_mem Prod.fst hmem' :
          (ns, ms).1 ∈ rest.map Prod.fst))
      simp [List.filter_cons, hkey, ih hnd' ns ms hmem']

/-- C6: one `flush` of the telemetry buffer (its atomicity is the single
buffer-swap step the mutex serialises) leaves the buffer empty, makes for
each namespace holding k buffered measurements exactly one sink call
containing exactly those k measurements, and neither loses nor duplicates a
measurement: the sink calls are precisely the swapped-out buffer entries. -/
theorem c6_flush_one_call_per_namespace
    (data : List (String × List MetricDatum))
    (hnodup : (data.map Prod.fst).Nodup) :
    (flush data).1 = [] ∧
    (∀ ns ms, (ns, ms) ∈ data →
      (flush data).2.filter (fun c => decide (c.1 = ns)) = [(ns, ms)]) ∧
    (flush data).2 = data := by
  rw [flush_eq data]
  exact ⟨rfl, fun ns ms hmem => filter_key_unique data hnodup ns ms hmem, rfl⟩

/-- C6 witness: a buffer with two namespaces (one and two measurements) is
flushed into exactly one call per namespace. -/
theorem c6_flush_one_call_per_namespace_witness :
    (([("foo", [⟨"FooThing", 12, [], 7⟩]),
       ("bar", [⟨"BarThing", 1, [("group", "a")], 8⟩, ⟨"BarThing", 5, [], 9⟩])]
        : List (String × List MetricDatum)).map Prod.fst).Nodup ∧
    ((flush [("foo", [⟨"FooThing", 12, [], 7⟩]),
       ("bar", [⟨"BarThing", 1, [("group", "a")], 8⟩, ⟨"BarThing", 5, [], 9⟩])]).1 = [] ∧
     (∀ ns ms, (ns, ms) ∈
        ([("foo", [⟨"FooThing", 12, [], 7⟩]),
          ("bar", [⟨"BarThing", 1, [("group", "a")], 8⟩, ⟨"BarThing", 5, [], 9⟩])]
           : List (String × List MetricDatum)) →
       (flush [("foo", [⟨"FooThing", 12, [], 7⟩]),
          ("bar", [⟨"BarThing", 1, [("group", "a")], 8⟩,
            ⟨"BarThing", 5, [], 9⟩])]).2.filter (fun c => decide (c.1 = ns)) = [(ns, ms)]) ∧
     (flush [("foo", [⟨"FooThing", 12, [], 7⟩]),
        ("bar", [⟨"BarThing", 1, [("group", "a")], 8⟩, ⟨"BarThing", 5, [], 9⟩])]).2 =
       [("foo", [⟨"FooThing", 12, [], 7⟩]),
        ("bar", [⟨"BarThing", 1, [("group", "a")], 8⟩, ⟨"BarThing", 5, [], 9⟩])]) :=
  ⟨by decide,
    c6_flush_one_call_per_namespace
      [("foo", [⟨"FooThing", 12, [], 7⟩]),
       ("bar", [⟨"BarThing", 1, [("group", "a")], 8⟩, ⟨"BarThing", 5, [], 9⟩])]
      (by decide)⟩

/-- C5 evaluated at the failing schedule: a measurement is submitted on the
buffered input channel before `Shutdown`, but the collector's `select` takes
the stop case before draining the channel (a schedule Go's runtime permits:
`select` chooses among ready cases arbitrarily).  The collector returns with
the measurement still queued, the final synchronous flush finds an empty
buffer, and the sink receives the measurement zero times — not exactly once
as the claim states. -/
theorem c5_shutdown_can_drop_queued_measurement :
    metricsRun (.submit ⟨"foo", "FooThing", 12, []⟩ :: shutdownEvents) =
      { inputChan := [⟨"foo", "FooThing", 12, []⟩], data := [], stopped := true
        sinkCalls := [] } ∧
    (∀ now, sinkDeliveries
      (metricsRun (.submit ⟨"foo", "FooThing", 12, []⟩ :: shutdownEvents))
      (convertInput ⟨"foo", "FooThing", 12, []⟩ now) = 0) ∧
    metricsRun [.submit ⟨"foo", "FooThing", 12, []⟩, .collect 3, .stop, .flushStep] =
      { inputChan := [], data := [], stopped := true
        sinkCalls := [("foo", [⟨"FooThing", 12, [], 3⟩])] } :=
  ⟨rfl, fun _ => rfl, rfl⟩

end Handler
